import Mathlib

/-!
A shallow embedding of the CAELES capsule runtime core
(`crates/caeles-runtime/src/runtime.rs` and `crates/caeles-runtime/src/manifest.rs`),
together with theorems settling the specification claims about it.

Conventions of the embedding:
* Rust `PathBuf` values are modelled by `Caeles.RPath` (an absolute flag plus a
  list of components); `Path::join` and `Path::starts_with` are modelled
  component-wise, as in Rust.
* The host filesystem (`fs::canonicalize`, `exists`, `is_dir`) is an abstract
  environment `Caeles.FS`.
* Guest linear memory is a list of byte values; `i32` pointer/length arguments
  are modelled by the `usize` values they are cast to in the source
  (`ptr as usize`, `len as usize`).
* Host standard output / standard error are lists of lines.
-/

namespace Caeles

/-- A filesystem path: Rust `PathBuf`, as an absolute-path flag plus components. -/
structure RPath where
  absolute : Bool
  comps : List String
deriving DecidableEq, Repr

/-- Rust `Path::join`: if the argument has a root it replaces `self`. -/
def RPath.join (p q : RPath) : RPath :=
  if q.absolute then q else ⟨p.absolute, p.comps ++ q.comps⟩

/-- Rust `Path::starts_with base`: component-wise, `base` leads `self`. -/
def RPath.startsWith (p base : RPath) : Bool :=
  base.absolute == p.absolute && base.comps.isPrefixOf p.comps

/-- Rendering of a path for error messages (Rust `Path::display`). -/
def RPath.render (p : RPath) : String :=
  (if p.absolute then "/" else "") ++ String.intercalate "/" p.comps

/-- The ambient filesystem as seen by `manifest.rs`: `fs::canonicalize` (which
fails by returning `none`), `Path::exists` and `Path::is_dir`. -/
structure FS where
  canonicalize : RPath → Option RPath
  pathExists : RPath → Bool
  isDir : RPath → Bool

/-- The permission flags of `manifest.rs` (`struct Permissions`); every flag
defaults to `false` when missing from the JSON. -/
structure Permissions where
  notifications : Bool
  network : Bool
  inherit_stdio : Bool
deriving DecidableEq, Repr

/-- One `preopened_dirs` entry of the manifest (`struct PreopenedDir`). -/
structure PreopenedDir where
  host : RPath
  guest : RPath
  read_only : Bool
deriving DecidableEq, Repr

/-- The manifest fields that `serde` deserialises from the JSON file
(`struct CapsuleManifest` without the `#[serde(skip)]` field `base_dir`). -/
structure ManifestData where
  id : String
  name : String
  version : String
  entry : String
  permissions : Permissions
  env : List (String × String)
  preopened_dirs : List PreopenedDir
deriving DecidableEq, Repr

/-- The loaded manifest: the parsed data plus the derived `base_dir`
(`struct CapsuleManifest`). -/
structure CapsuleManifest extends ManifestData where
  base_dir : RPath
deriving DecidableEq, Repr

/-- `CapsuleManifest::load` (manifest.rs): read the file, parse the JSON
(both steps are environment inputs, combined in `parseResult`; `serde`
performs no emptiness checks on string fields), then record `base_dir` from
the manifest path's parent.  No further validation happens at load time. -/
def CapsuleManifest.load (parseResult : Except String ManifestData)
    (parentDir : RPath) : Except String CapsuleManifest :=
  match parseResult with
  | .error e => .error e
  | .ok d => .ok ⟨d, parentDir⟩

/-- `manifest.wasm_path()`: `base_dir.join(&self.entry)`. -/
def CapsuleManifest.wasm_path (m : CapsuleManifest) : RPath :=
  m.base_dir.join ⟨false, [m.entry]⟩

/-- Byte-level membership test used to model Rust `str::contains(char)`. -/
def containsChar (s : String) (c : Char) : Bool :=
  s.data.contains c

/-- The checks of the loop in `validated_env` (manifest.rs): returns the first
error message, or `none` when every pair passes. -/
def checkEnvPairs : List (String × String) → Option String
  | [] => none
  | (key, value) :: rest =>
    if key.isEmpty then
      some "Chave de env não pode ser vazia"
    else if containsChar key '\x00' || containsChar key '=' then
      some ("Chave de env inválida (contém '=' ou NUL): " ++ key)
    else if containsChar value '\x00' then
      some ("Valor de env inválido (contém NUL) para chave " ++ key)
    else
      checkEnvPairs rest

/-- `CapsuleManifest::validated_env` (manifest.rs): bail on the first invalid
pair, otherwise return all pairs. -/
def CapsuleManifest.validated_env (m : CapsuleManifest) :
    Except String (List (String × String)) :=
  match checkEnvPairs m.env with
  | some e => .error e
  | none => .ok m.env

/-- The predicate under which `validated_env` rejects a pair. -/
def envPairBad (p : String × String) : Bool :=
  p.1.isEmpty || containsChar p.1 '\x00' || containsChar p.1 '='
    || containsChar p.2 '\x00'

/-- Boolean string-prefix test over the character data. -/
def strLeads (pre s : String) : Bool :=
  pre.data.isPrefixOf s.data

/-- Is `b` a UTF-8 continuation byte (`0x80..=0xBF`)? -/
def utf8Cont (b : Nat) : Bool :=
  0x80 ≤ b && b ≤ 0xBF

/-- UTF-8 validation and decoding of a byte sequence, as performed by Rust's
`String::from_utf8` (rejecting overlong encodings, surrogates and values above
`U+10FFFF`).  The `Nat` fuel argument only drives the recursion; any fuel at
least the list length gives the decoder's value. -/
def utf8DecodeAux : Nat → List Nat → Option (List Char)
  | _, [] => some []
  | 0, _ :: _ => none
  | fuel + 1, b0 :: rest =>
    if b0 < 0x80 then
      (utf8DecodeAux fuel rest).map (fun cs => Char.ofNat b0 :: cs)
    else if b0 < 0xC2 then
      none
    else if b0 ≤ 0xDF then
      match rest with
      | b1 :: r =>
        if utf8Cont b1 then
          (utf8DecodeAux fuel r).map
            (fun cs => Char.ofNat ((b0 - 0xC0) * 0x40 + (b1 - 0x80)) :: cs)
        else none
      | [] => none
    else if b0 ≤ 0xEF then
      match rest with
      | b1 :: b2 :: r =>
        let b1ok :=
          if b0 == 0xE0 then 0xA0 ≤ b1 && b1 ≤ 0xBF
          else if b0 == 0xED then 0x80 ≤ b1 && b1 ≤ 0x9F
          else utf8Cont b1
        if b1ok && utf8Cont b2 then
          (utf8DecodeAux fuel r).map
            (fun cs =>
              Char.ofNat ((b0 - 0xE0) * 0x1000 + (b1 - 0x80) * 0x40 + (b2 - 0x80)) :: cs)
        else none
      | _ => none
    else if b0 ≤ 0xF4 then
      match rest with
      | b1 :: b2 :: b3 :: r =>
        let b1ok :=
          if b0 == 0xF0 then 0x90 ≤ b1 && b1 ≤ 0xBF
          else if b0 == 0xF4 then 0x80 ≤ b1 && b1 ≤ 0x8F
          else utf8Cont b1
        if b1ok && utf8Cont b2 && utf8Cont b3 then
          (utf8DecodeAux fuel r).map
            (fun cs =>
              Char.ofNat ((b0 - 0xF0) * 0x40000 + (b1 - 0x80) * 0x1000
                + (b2 - 0x80) * 0x40 + (b3 - 0x80)) :: cs)
        else none
      | _ => none
    else none

/-- `String::from_utf8` on a byte list: `some` of the decoded string on valid
UTF-8, `none` otherwise. -/
def stringFromUtf8 (bs : List Nat) : Option String :=
  (utf8DecodeAux bs.length bs).map fun cs => ⟨cs⟩

/-- The caller-visible state of the guest instance during a host call: the
contents of its exported linear memory named `"memory"`, or `none` when the
instance has no memory export of memory type. -/
structure GuestCaller where
  memory : Option (List Nat)
deriving DecidableEq, Repr

/-- The console output of one host call: lines written to standard output and
standard error. -/
structure HostOut where
  stdout : List String
  stderr : List String
deriving DecidableEq, Repr

/-- `read_string_from_memory` (runtime.rs): look up the caller's `"memory"`
export, read `len` bytes at `ptr`, decode as UTF-8.  Each failure logs one
diagnostic to standard error and yields `none`; the caller's host call then
performs no effect.  Returns the decoded string (if any) and the diagnostic
lines. -/
def read_string_from_memory (caller : GuestCaller) (ptr len : Nat) :
    Option String × List String :=
  match caller.memory with
  | none => (none, ["[caeles-runtime] cápsula não exporta memória \"memory\""])
  | some mem =>
    if ptr + len ≤ mem.length then
      match stringFromUtf8 ((mem.drop ptr).take len) with
      | some s => (some s, [])
      | none => (none, ["[caeles-runtime] bytes não são UTF-8 válidos"])
    else
      (none, ["[caeles-runtime] erro lendo memória da cápsula: out of bounds"])

/-- The `host_log` closure of `instantiate_module` (runtime.rs): decode the
string and print `[capsule-log] <msg>`; on decode failure, no output line.
There is no permission gate: logging cannot be denied. -/
def host_log (caller : GuestCaller) (ptr len : Nat) : HostOut :=
  match read_string_from_memory caller ptr len with
  | (some msg, errs) => ⟨["[capsule-log] " ++ msg], errs⟩
  | (none, errs) => ⟨[], errs⟩

/-- The single line printed by a blocked `host_notify` call (runtime.rs). -/
def blockedNotifyLine (msg : String) : String :=
  "[capsule-notify BLOQUEADA] Permissão 'notifications' = false. Mensagem seria: " ++ msg

/-- The `host_notify` closure of `instantiate_module` (runtime.rs): decode the
message; when `notifications_allowed` print `[capsule-notify] <msg>`, otherwise
print the single blocked-diagnostic line.  On decode failure, no output. -/
def host_notify (notificationsAllowed : Bool) (caller : GuestCaller)
    (ptr len : Nat) : HostOut :=
  match read_string_from_memory caller ptr len with
  | (some msg, errs) =>
    if notificationsAllowed then ⟨["[capsule-notify] " ++ msg], errs⟩
    else ⟨[blockedNotifyLine msg], errs⟩
  | (none, errs) => ⟨[], errs⟩

/-- A `wasmtime::ExternType`, kept at the resolution the runtime inspects:
memory, function (argument and result arities — `caeles_main` must be
`() -> ()`), or anything else. -/
inductive ExternTy
  | memory
  | func (params results : Nat)
  | other
deriving DecidableEq, Repr

/-- A compiled WebAssembly module as the runtime's static audits see it:
its imports (module name, field name) and its exports (name, type). -/
structure WasmModule where
  imports : List (String × String)
  exports : List (String × ExternTy)
deriving DecidableEq, Repr

/-- `ensure_memory_export` (runtime.rs): the module must export an item of
memory type named `"memory"`. -/
def ensure_memory_export (m : WasmModule) : Except String Unit :=
  if m.exports.any (fun e => e.2 == ExternTy.memory && e.1 == "memory") then
    .ok ()
  else
    .error "Módulo não exporta memória \"memory\""

/-- The per-import predicate of `detect_network_imports` (runtime.rs): is
this (module name, field name) pair a recognised network import? -/
def isNetworkImport (imp : String × String) : Bool :=
  let moduleName := imp.1
  let field := imp.2
  (moduleName == "wasi_snapshot_preview1" && strLeads "sock_" field)
    || (moduleName == "wasi_snapshot_preview1"
          && (strLeads "tcp_" field || strLeads "udp_" field))
    || strLeads "wasi:io/socket" moduleName
    || (strLeads "wasi:net" moduleName || strLeads "wasi:sockets" moduleName)

/-- `detect_network_imports` (runtime.rs): does any import reference a
recognised network module? -/
def detect_network_imports (m : WasmModule) : Bool :=
  m.imports.any isNetworkImport

/-- A preopen entry validated by `validated_preopens` (manifest.rs,
`struct ValidatedPreopen`). -/
structure ValidatedPreopen where
  host : RPath
  guest : RPath
  read_only : Bool
deriving DecidableEq, Repr

/-- `canonicalize_guest_path` (manifest.rs): the guest path must be absolute
and contain no `..` component; it is returned unchanged. -/
def canonicalize_guest_path (guest : RPath) : Except String RPath :=
  if !guest.absolute then
    .error ("guest path de preopen deve ser absoluto: " ++ guest.render)
  else if guest.comps.contains ".." then
    .error ("guest path de preopen não pode conter '..': " ++ guest.render)
  else
    .ok guest

/-- The error message of the preopen escape check (manifest.rs). -/
def escapeMsg (canonicalHost base : RPath) : String :=
  "Diretório preaberto sai de base_dir: " ++ canonicalHost.render
    ++ " não está dentro de " ++ base.render

/-- The per-entry body of the loop in `validated_preopens` (manifest.rs). -/
def validatePreopenEntry (fs : FS) (base : RPath) (entry : PreopenedDir) :
    Except String ValidatedPreopen :=
  let hostPath := base.join entry.host
  if !fs.pathExists hostPath then
    .error ("Diretório preaberto não existe (host): " ++ hostPath.render)
  else if !fs.isDir hostPath then
    .error ("Diretório preaberto aponta para algo que não é diretório (host): "
      ++ hostPath.render)
  else
    match fs.canonicalize hostPath with
    | none => .error ("Erro ao canonizar diretório preaberto " ++ hostPath.render)
    | some canonicalHost =>
      if !canonicalHost.startsWith base then
        .error (escapeMsg canonicalHost base)
      else
        match canonicalize_guest_path entry.guest with
        | .error e => .error e
        | .ok guest => .ok ⟨canonicalHost, guest, entry.read_only⟩

/-- The loop of `validated_preopens`, preserving input order. -/
def validatePreopenList (fs : FS) (base : RPath) :
    List PreopenedDir → Except String (List ValidatedPreopen)
  | [] => .ok []
  | entry :: rest =>
    match validatePreopenEntry fs base entry with
    | .error e => .error e
    | .ok v =>
      match validatePreopenList fs base rest with
      | .error e => .error e
      | .ok vs => .ok (v :: vs)

/-- `CapsuleManifest::validated_preopens` (manifest.rs): canonicalise
`base_dir`, then validate every entry in order, bailing on the first
violation. -/
def CapsuleManifest.validated_preopens (fs : FS) (m : CapsuleManifest) :
    Except String (List ValidatedPreopen) :=
  match fs.canonicalize m.base_dir with
  | none => .error ("Não foi possível canonizar base_dir " ++ m.base_dir.render)
  | some base => validatePreopenList fs base m.preopened_dirs

/-- The ambient environment of one `run_capsule` invocation: the outcome of
`Module::from_file` on the manifest's module path, the filesystem, whether
`Dir::open_ambient_dir` succeeds on a validated preopen, whether
`linker.instantiate` succeeds for the module, and whether `caeles_main`
returns cleanly (`true`) or traps (`false`). -/
structure RunEnv where
  loadModule : Except String WasmModule
  fs : FS
  dirOpenOk : RPath → Bool
  instantiateOk : WasmModule → Bool
  mainOk : Bool

/-- Which stages of `run_capsule` were reached: was `Module::from_file`
called on the module file, was an instance created, was `caeles_main`
invoked. -/
structure RunLog where
  moduleOpened : Bool
  instantiated : Bool
  mainInvoked : Bool
deriving DecidableEq, Repr

/-- `open_preopen_dir` over the validated preopens (`add_preopens`,
runtime.rs): each validated preopen's canonical host directory must open. -/
def openPreopens (env : RunEnv) : List ValidatedPreopen → Except String Unit
  | [] => .ok ()
  | p :: rest =>
    if env.dirOpenOk p.host then openPreopens env rest
    else .error ("Falha ao abrir diretório preaberto " ++ p.host.render)

/-- `instantiate_module` (runtime.rs), up to and including
`linker.instantiate`: build the WASI context (`validated_env`, then
`validated_preopens` and opening each preopen directory), then instantiate.
Only a `.ok` result corresponds to an instance being created. -/
def instantiate_module (env : RunEnv) (m : CapsuleManifest)
    (module : WasmModule) : Except String Unit :=
  match m.validated_env with
  | .error e => .error e
  | .ok _ =>
    match m.validated_preopens env.fs with
    | .error e => .error e
    | .ok preopens =>
      match openPreopens env preopens with
      | .error e => .error e
      | .ok _ =>
        if env.instantiateOk module then .ok ()
        else .error "falha ao instanciar módulo"

/-- `Instance::get_typed_func::<(), ()>(_, "caeles_main")` succeeds iff the
module exports a function named `caeles_main` of type `() -> ()`. -/
def hasMainExport (module : WasmModule) : Bool :=
  module.exports.any fun e => e.1 == "caeles_main" && e.2 == ExternTy.func 0 0

/-- The error message of the static network-import gate (runtime.rs). -/
def networkBlockedMsg : String :=
  "Módulo requer APIs de rede, mas permissions.network = false"

/-- `run_capsule` (runtime.rs), with the stage log.  The order mirrors the
source: open the module file, check the `memory` export, check network
imports against `permissions.network`, instantiate (which validates env and
preopens), look up `caeles_main`, call it. -/
def run_capsule (env : RunEnv) (m : CapsuleManifest) :
    RunLog × Except String Unit :=
  match env.loadModule with
  | .error e => (⟨true, false, false⟩, .error e)
  | .ok module =>
    match ensure_memory_export module with
    | .error e => (⟨true, false, false⟩, .error e)
    | .ok _ =>
      if detect_network_imports module && !m.permissions.network then
        (⟨true, false, false⟩, .error networkBlockedMsg)
      else
        match instantiate_module env m module with
        | .error e => (⟨true, false, false⟩, .error e)
        | .ok _ =>
          if hasMainExport module then
            if env.mainOk then (⟨true, true, true⟩, .ok ())
            else (⟨true, true, true⟩, .error "trap durante caeles_main")
          else
            (⟨true, true, false⟩, .error "caeles_main ausente ou com tipo inválido")

/-- Two's-complement wrap-around of an integer into the signed 64-bit range,
the arithmetic the specification prescribes for metric counters. -/
def wrap64 (z : Int) : Int :=
  (z + 2 ^ 63) % 2 ^ 64 - 2 ^ 63

/-- Modelled from the spec: the metrics-map update of `host_metric_inc`
(the host-side implementation is absent from the sources; only the SDK
declaration and capsule callers exist).  "acquire the metrics map, look up or
create the counter for `name`, add the signed `delta`" — counters are signed
64-bit and wrap on overflow. -/
def bumpMetric : List (String × Int) → String → Int → List (String × Int)
  | [], n, d => [(n, wrap64 d)]
  | (k, v) :: rest, n, d =>
    if k = n then (k, wrap64 (v + d)) :: rest
    else (k, v) :: bumpMetric rest n d

/-- Modelled from the spec: the success log line of `host_metric_inc`,
`[capsule-metric] <name> += <delta> (total = <new>)`. -/
def metricLogLine (n : String) (delta total : Int) : String :=
  "[capsule-metric] " ++ n ++ " += " ++ toString delta
    ++ " (total = " ++ toString total ++ ")"

/-- Modelled from the spec: the blocked diagnostic of `host_metric_inc`, in
the spec's format `[capsule-<op> BLOCKED] Permission '<flag>' = false.
<context>`. -/
def blockedMetricLine (n : String) (delta : Int) : String :=
  "[capsule-metric BLOCKED] Permission 'metrics' = false. "
    ++ n ++ " += " ++ toString delta

/-- Modelled from the spec: `host_metric_inc` (absent from the sources).
Decode the name through the shared marshaller; gate on `metrics`; if allowed
update the counter and log, otherwise emit the single blocked diagnostic. -/
def host_metric_inc (metricsAllowed : Bool) (caller : GuestCaller)
    (namePtr nameLen : Nat) (delta : Int) (metrics : List (String × Int)) :
    List (String × Int) × HostOut :=
  match read_string_from_memory caller namePtr nameLen with
  | (some n, errs) =>
    if metricsAllowed then
      let total := wrap64 ((List.lookup n metrics).getD 0 + delta)
      (bumpMetric metrics n delta, ⟨[metricLogLine n delta total], errs⟩)
    else
      (metrics, ⟨[blockedMetricLine n delta], errs⟩)
  | (none, errs) => (metrics, ⟨[], errs⟩)

/-- Modelled from the spec: the event-sink path
`<event_sink_dir>/events-<capsule_id>.log`. -/
def storePath (sinkDir id : String) : String :=
  sinkDir ++ "/events-" ++ id ++ ".log"

/-- Modelled from the spec: the blocked diagnostic of `host_store_event`. -/
def blockedStoreLine (key : String) : String :=
  "[capsule-store BLOCKED] Permission 'storage' = false. key=" ++ key

/-- Modelled from the spec: `host_store_event` (absent from the sources).
Decode both strings; gate on `storage`; if allowed append one line
`key=<key> payload=<payload>` to the per-capsule sink and log, otherwise emit
the single blocked diagnostic.  `sink` is the event file's line contents. -/
def host_store_event (storageAllowed : Bool) (sinkDir id : String)
    (caller : GuestCaller) (keyPtr keyLen payloadPtr payloadLen : Nat)
    (sink : List String) : List String × HostOut :=
  let k := read_string_from_memory caller keyPtr keyLen
  let p := read_string_from_memory caller payloadPtr payloadLen
  match k.1, p.1 with
  | some key, some payload =>
    if storageAllowed then
      (sink ++ ["key=" ++ key ++ " payload=" ++ payload],
        ⟨["[capsule-store] event written to " ++ storePath sinkDir id],
          k.2 ++ p.2⟩)
    else
      (sink, ⟨[blockedStoreLine key], k.2 ++ p.2⟩)
  | _, _ => (sink, ⟨[], k.2 ++ p.2⟩)

/-- The console output of `host_http_get` plus the HTTP requests actually
issued (URLs, in order). -/
structure HttpOut where
  out : HostOut
  requests : List String
deriving DecidableEq, Repr

/-- Modelled from the spec: the first 120 characters of the response body,
newlines replaced by spaces. -/
def truncBody (body : String) : String :=
  ⟨(body.data.map fun c => if c = '\n' then ' ' else c).take 120⟩

/-- Modelled from the spec: the blocked diagnostic of `host_http_get`. -/
def blockedHttpLine (url : String) : String :=
  "[capsule-http BLOCKED] Permission 'network' = false. URL: " ++ url

/-- Modelled from the spec: `host_http_get` (absent from the sources).
Decode the URL; gate on `network`; if allowed issue the request through the
ambient `responder` (status and body, or `none` on failure) and log,
otherwise emit the single blocked diagnostic and issue no request. -/
def host_http_get (networkAllowed : Bool)
    (responder : String → Option (Nat × String)) (caller : GuestCaller)
    (ptr len : Nat) : HttpOut :=
  match read_string_from_memory caller ptr len with
  | (some url, errs) =>
    if networkAllowed then
      match responder url with
      | some (status, body) =>
        ⟨⟨["[capsule-http] GET " ++ url ++ " -> " ++ toString status ++ " "
            ++ truncBody body], errs⟩, [url]⟩
      | none => ⟨⟨["[capsule-http ERROR] Failed GET: " ++ url], errs⟩, [url]⟩
    else
      ⟨⟨[blockedHttpLine url], errs⟩, []⟩
  | (none, errs) => ⟨⟨[], errs⟩, []⟩

/-- Lexicographic order (by code point) on character lists, executable. -/
def charListLe : List Char → List Char → Bool
  | [], _ => true
  | _ :: _, [] => false
  | a :: as, b :: bs =>
    if a.toNat < b.toNat then true
    else if b.toNat < a.toNat then false
    else charListLe as bs

/-- Lexicographic order on strings, executable. -/
def strLe (a b : String) : Bool :=
  charListLe a.data b.data

/-- Ordering of metric entries by name, for the end-of-execution summary. -/
def byName (a b : String × Int) : Prop :=
  strLe a.1 b.1 = true

instance : DecidableRel byName :=
  fun a b => inferInstanceAs (Decidable (strLe a.1 b.1 = true))

/-- Modelled from the spec: the end-of-execution metrics summary (absent from
the sources).  If the metrics map is non-empty, the header line followed by
one line `  - <name> = <value>` per metric, names in ascending lexicographic
order. -/
def metricsSummary (metrics : List (String × Int)) : List String :=
  if metrics.isEmpty then []
  else
    "> Metrics summary for this execution:"
      :: (List.insertionSort byName metrics).map
          (fun p => "  - " ++ p.1 ++ " = " ++ toString p.2)

/-- Applying a sequence of (name, delta) metric increments to a metrics map,
as a successful `host_metric_inc` call does for each. -/
def applyMetricOps (metrics : List (String × Int))
    (ops : List (String × Int)) : List (String × Int) :=
  ops.foldl (fun m op => bumpMetric m op.1 op.2) metrics

/-- Did this fallible computation succeed? -/
def exceptOk {ε α : Type} : Except ε α → Bool
  | .ok _ => true
  | .error _ => false

/-- Does one preopen entry pass every check of `validated_preopens`? -/
def entryOk (fs : FS) (base : RPath) (e : PreopenedDir) : Bool :=
  exceptOk (validatePreopenEntry fs base e)

/-- Membership of the signed 64-bit range. -/
def inRange64 (z : Int) : Bool :=
  decide (-(2 ^ 63) ≤ z ∧ z < 2 ^ 63)

/-- Every partial sum of `acc + d₁ + … + dᵢ` (for `i ≥ 1`) lies in the signed
64-bit range, so no metric increment of the sequence wraps. -/
def sumsOk (acc : Int) : List Int → Bool
  | [] => true
  | d :: ds => inRange64 (acc + d) && sumsOk (acc + d) ds

/-- Does `sub` occur as a contiguous run inside the second list? -/
def hasRun (sub : List Char) : List Char → Bool
  | [] => sub.isEmpty
  | a :: t => sub.isPrefixOf (a :: t) || hasRun sub t

/-- Boolean substring test over the character data, used to state whether an
error message names a given import. -/
def strMentions (s sub : String) : Bool :=
  hasRun sub.data s.data

/-- A module that imports a socket function and has the required exports. -/
def sockModule : WasmModule :=
  ⟨[("wasi_snapshot_preview1", "sock_open")],
   [("memory", ExternTy.memory), ("caeles_main", ExternTy.func 0 0)]⟩

/-- A module with the required exports and no imports. -/
def plainModule : WasmModule :=
  ⟨[], [("memory", ExternTy.memory), ("caeles_main", ExternTy.func 0 0)]⟩

/-- A module exporting only its memory, with no `caeles_main` export. -/
def noMainModule : WasmModule :=
  ⟨[], [("memory", ExternTy.memory)]⟩

/-- A filesystem in which every path canonicalises to itself, exists and is
a directory. -/
def idFS : FS :=
  ⟨fun p => some p, fun _ => true, fun _ => true⟩

/-- A run environment that loads the given module and in which every ambient
step succeeds. -/
def benignEnv (mod : WasmModule) : RunEnv :=
  ⟨.ok mod, idFS, fun _ => true, fun _ => true, true⟩

/-- A manifest with every permission false, no env and no preopens. -/
def plainManifest : CapsuleManifest :=
  ⟨⟨"com.ex.test", "Test", "1.0", "m.wasm", ⟨false, false, false⟩, [], []⟩,
   ⟨true, ["app"]⟩⟩

/-- The filesystem of the preopen-escape scenario: `base_dir` `/app`
canonicalises to itself, and `/app/../secrets` exists, is a directory, and
canonicalises to `/secrets` — outside the base directory. -/
def escapeFS : FS :=
  ⟨fun p =>
     if p == ⟨true, ["app"]⟩ then some ⟨true, ["app"]⟩
     else if p == ⟨true, ["app", "..", "secrets"]⟩ then some ⟨true, ["secrets"]⟩
     else none,
   fun p => p == ⟨true, ["app", "..", "secrets"]⟩,
   fun p => p == ⟨true, ["app", "..", "secrets"]⟩⟩

/-- The escape-scenario manifest: one preopen whose host is `../secrets`. -/
def escapeManifest : CapsuleManifest :=
  ⟨⟨"com.ex.esc", "Esc", "1.0", "m.wasm", ⟨false, false, false⟩, [],
    [⟨⟨false, ["..", "secrets"]⟩, ⟨true, ["data"]⟩, false⟩]⟩,
   ⟨true, ["app"]⟩⟩

/-- The escape-scenario run environment. -/
def escapeEnv : RunEnv :=
  ⟨.ok plainModule, escapeFS, fun _ => true, fun _ => true, true⟩

theorem charListLe_total : ∀ as bs : List Char,
    charListLe as bs = true ∨ charListLe bs as = true
  | [], _ => Or.inl rfl
  | _ :: _, [] => Or.inr rfl
  | a :: as, b :: bs => by
    simp only [charListLe]
    rcases Nat.lt_trichotomy a.toNat b.toNat with h | h | h
    · left
      simp [h]
    · simpa [h, Nat.lt_irrefl] using charListLe_total as bs
    · right
      simp [h]

theorem charListLe_trans : ∀ as bs cs : List Char,
    charListLe as bs = true → charListLe bs cs = true → charListLe as cs = true
  | [], _, _ => fun _ _ => rfl
  | _ :: _, [], _ => fun h _ => by simp [charListLe] at h
  | _ :: _, _ :: _, [] => fun _ h => by simp [charListLe] at h
  | a :: as, b :: bs, c :: cs => fun hab hbc => by
    simp only [charListLe] at hab hbc ⊢
    by_cases h2 : b.toNat < c.toNat
    · by_cases h1 : a.toNat < b.toNat
      · simp [Nat.lt_trans h1 h2]
      · by_cases h1' : b.toNat < a.toNat
        · simp [h1, h1'] at hab
        · have : a.toNat < c.toNat := by omega
          simp [this]
    · by_cases h2' : c.toNat < b.toNat
      · simp [h2, h2'] at hbc
      · by_cases h1 : a.toNat < b.toNat
        · have : a.toNat < c.toNat := by omega
          simp [this]
        · by_cases h1' : b.toNat < a.toNat
          · simp [h1, h1'] at hab
          · simp only [if_neg h1, if_neg h1'] at hab
            simp only [if_neg h2, if_neg h2'] at hbc
            have hac : ¬ a.toNat < c.toNat := by omega
            have hca : ¬ c.toNat < a.toNat := by omega
            simp only [if_neg hac, if_neg hca]
            exact charListLe_trans as bs cs hab hbc

theorem isPrefixOf_append_of_le (p a m : List Char) (h : p.length ≤ a.length) :
    p.isPrefixOf (a ++ m) = p.isPrefixOf a := by
  induction p generalizing a with
  | nil => simp [List.isPrefixOf]
  | cons x xs ih =>
    cases a with
    | nil => simp at h
    | cons y ys =>
      simp only [List.cons_append, List.isPrefixOf, List.append_eq]
      rw [ih ys (by simpa using h)]

theorem notify_blocked_not_notifyTag (msg : String) :
    strLeads "[capsule-notify] " (blockedNotifyLine msg) = false := by
  unfold strLeads blockedNotifyLine
  rw [String.data_append, isPrefixOf_append_of_le _ _ _ (by decide)]
  decide

/-- C1: for every gated host call whose governing permission flag is false,
the call has no observable effect — `host_notify` emits no
`[capsule-notify] <msg>` notification line, `host_metric_inc` leaves the
metrics map unchanged, `host_store_event` appends nothing to the event sink,
`host_http_get` issues no HTTP request — and whenever the arguments decode
(so the permission gate is reached) exactly one blocked diagnostic line is
written for the blocked call. -/
theorem gated_call_block_contract :
    (∀ (c : GuestCaller) (p l : Nat),
        (∀ s ∈ (host_notify false c p l).stdout,
          strLeads "[capsule-notify] " s = false) ∧
        (∀ (msg : String) (errs : List String),
          read_string_from_memory c p l = (some msg, errs) →
          (host_notify false c p l).stdout = [blockedNotifyLine msg]))
    ∧ (∀ (c : GuestCaller) (np nl : Nat) (d : Int) (m : List (String × Int)),
        (host_metric_inc false c np nl d m).1 = m ∧
        (∀ (n : String) (errs : List String),
          read_string_from_memory c np nl = (some n, errs) →
          (host_metric_inc false c np nl d m).2.stdout = [blockedMetricLine n d]))
    ∧ (∀ (sd id : String) (c : GuestCaller) (kp kl pp pl : Nat)
          (sink : List String),
        (host_store_event false sd id c kp kl pp pl sink).1 = sink ∧
        (∀ (k pay : String) (e1 e2 : List String),
          read_string_from_memory c kp kl = (some k, e1) →
          read_string_from_memory c pp pl = (some pay, e2) →
          (host_store_event false sd id c kp kl pp pl sink).2.stdout
            = [blockedStoreLine k]))
    ∧ (∀ (resp : String → Option (Nat × String)) (c : GuestCaller) (p l : Nat),
        (host_http_get false resp c p l).requests = [] ∧
        (∀ (url : String) (errs : List String),
          read_string_from_memory c p l = (some url, errs) →
          (host_http_get false resp c p l).out.stdout = [blockedHttpLine url])) := by
  refine ⟨fun c p l => ⟨?_, ?_⟩, fun c np nl d m => ⟨?_, ?_⟩,
    fun sd id c kp kl pp pl sink => ⟨?_, ?_⟩, fun resp c p l => ⟨?_, ?_⟩⟩
  · intro s hs
    rcases hr : read_string_from_memory c p l with ⟨msg?, errs⟩
    cases msg? with
    | none => simp [host_notify, hr] at hs
    | some msg =>
      simp [host_notify, hr] at hs
      subst hs
      exact notify_blocked_not_notifyTag msg
  · intro msg errs hr
    simp [host_notify, hr]
  · rcases hr : read_string_from_memory c np nl with ⟨n?, errs⟩
    cases n? <;> simp [host_metric_inc, hr]
  · intro n errs hr
    simp [host_metric_inc, hr]
  · rcases hr1 : read_string_from_memory c kp kl with ⟨k?, e1⟩
    rcases hr2 : read_string_from_memory c pp pl with ⟨p?, e2⟩
    cases k? <;> cases p? <;> simp [host_store_event, hr1, hr2]
  · intro k pay e1 e2 hr1 hr2
    simp [host_store_event, hr1, hr2]
  · rcases hr : read_string_from_memory c p l with ⟨u?, errs⟩
    cases u? <;> simp [host_http_get, hr]
  · intro url errs hr
    simp [host_http_get, hr]

/-- Witness for C1 at concrete inputs (memory holds the UTF-8 bytes of
"hi"). -/
theorem gated_call_block_contract_witness :
    (host_notify false ⟨some [104, 105]⟩ 0 2).stdout = [blockedNotifyLine "hi"] ∧
    (host_metric_inc false ⟨some [104, 105]⟩ 0 2 7 []).2.stdout
      = [blockedMetricLine "hi" 7] ∧
    (host_store_event false "./data" "com.ex" ⟨some [104, 105]⟩ 0 2 0 2
        []).2.stdout = [blockedStoreLine "hi"] ∧
    (host_http_get false (fun _ => none) ⟨some [104, 105]⟩ 0 2).out.stdout
      = [blockedHttpLine "hi"] :=
  ⟨(gated_call_block_contract.1 ⟨some [104, 105]⟩ 0 2).2 "hi" [] (by decide),
   (gated_call_block_contract.2.1 ⟨some [104, 105]⟩ 0 2 7 []).2 "hi" []
     (by decide),
   (gated_call_block_contract.2.2.1 "./data" "com.ex" ⟨some [104, 105]⟩ 0 2 0 2
     []).2 "hi" "hi" [] [] (by decide) (by decide),
   (gated_call_block_contract.2.2.2 (fun _ => none) ⟨some [104, 105]⟩ 0 2).2
     "hi" [] (by decide)⟩

/-- C2 counterexample: with the message "bye" decoded from guest memory and
notifications disabled, `host_notify` writes the Portuguese line
`[capsule-notify BLOQUEADA] Permissão 'notifications' = false. Mensagem seria:
bye`, not the English line the claim quotes. -/
theorem notify_blocked_line_differs :
    (host_notify false ⟨some [98, 121, 101]⟩ 0 3).stdout
      ≠ ["[capsule-notify BLOCKED] Permission 'notifications' = false. Mensagem seria: bye"] := by
  decide

/-- C2 amended: when the guest string decodes, `host_log` writes exactly
`[capsule-log] <s>` (it has no permission gate and is never denied), and a
blocked `host_notify` writes exactly the line
`[capsule-notify BLOQUEADA] Permissão 'notifications' = false. Mensagem seria:
<m>`. -/
theorem log_and_notify_output (c : GuestCaller) (p l : Nat) (msg : String)
    (errs : List String)
    (h : read_string_from_memory c p l = (some msg, errs)) :
    (host_log c p l).stdout = ["[capsule-log] " ++ msg] ∧
    (host_notify false c p l).stdout
      = ["[capsule-notify BLOQUEADA] Permissão 'notifications' = false. Mensagem seria: "
          ++ msg] := by
  constructor <;> simp [host_log, host_notify, blockedNotifyLine, h]

/-- Witness for the amended C2 at the message "bye". -/
theorem log_and_notify_output_witness :
    (host_log ⟨some [98, 121, 101]⟩ 0 3).stdout = ["[capsule-log] " ++ "bye"] ∧
    (host_notify false ⟨some [98, 121, 101]⟩ 0 3).stdout
      = ["[capsule-notify BLOQUEADA] Permissão 'notifications' = false. Mensagem seria: "
          ++ "bye"] :=
  log_and_notify_output ⟨some [98, 121, 101]⟩ 0 3 "bye" [] (by decide)

/-- C9: when a host call's string argument fails to decode — missing `memory`
export, out-of-bounds read, or invalid UTF-8 — the marshaller yields `none`
with exactly one diagnostic line, and every host call funnelled through it
performs no effect: no stdout line, metrics and sink unchanged, no HTTP
request.  The host functions are total (they return output records rather
than erroring), so no failure propagates as a trap into the guest. -/
theorem host_call_decode_failure_noop (c : GuestCaller) (p l : Nat)
    (h : c.memory = none
      ∨ (∃ mem, c.memory = some mem ∧ mem.length < p + l)
      ∨ (∃ mem, c.memory = some mem ∧ p + l ≤ mem.length ∧
          stringFromUtf8 ((mem.drop p).take l) = none)) :
    (read_string_from_memory c p l).1 = none ∧
    (read_string_from_memory c p l).2.length = 1 ∧
    (host_log c p l).stdout = [] ∧
    (∀ b : Bool, (host_notify b c p l).stdout = []) ∧
    (∀ (b : Bool) (d : Int) (m : List (String × Int)),
      (host_metric_inc b c p l d m).1 = m ∧
      (host_metric_inc b c p l d m).2.stdout = []) ∧
    (∀ (b : Bool) (sd id : String) (pp pl : Nat) (sink : List String),
      (host_store_event b sd id c p l pp pl sink).1 = sink ∧
      (host_store_event b sd id c p l pp pl sink).2.stdout = []) ∧
    (∀ (b : Bool) (resp : String → Option (Nat × String)),
      (host_http_get b resp c p l).requests = [] ∧
      (host_http_get b resp c p l).out.stdout = []) := by
  obtain ⟨e, he⟩ : ∃ e, read_string_from_memory c p l = (none, [e]) := by
    rcases h with h | ⟨mem, hm, hl⟩ | ⟨mem, hm, hle, hdec⟩
    · exact ⟨"[caeles-runtime] cápsula não exporta memória \"memory\"",
        by simp [read_string_from_memory, h]⟩
    · refine ⟨"[caeles-runtime] erro lendo memória da cápsula: out of bounds", ?_⟩
      unfold read_string_from_memory
      rw [hm]
      simp only []
      rw [if_neg (by omega)]
    · refine ⟨"[caeles-runtime] bytes não são UTF-8 válidos", ?_⟩
      unfold read_string_from_memory
      rw [hm]
      simp only []
      rw [if_pos hle, hdec]
  refine ⟨by rw [he], by simp [he], by simp [host_log, he],
    fun b => by simp [host_notify, he],
    fun b d m => ⟨by simp [host_metric_inc, he], by simp [host_metric_inc, he]⟩,
    fun b sd id pp pl sink => ?_,
    fun b resp => ⟨by simp [host_http_get, he], by simp [host_http_get, he]⟩⟩
  rcases hr2 : read_string_from_memory c pp pl with ⟨p?, e2⟩
  cases p? <;> simp [host_store_event, he, hr2]

/-- Witness for C9: a caller with no exported memory. -/
theorem host_call_decode_failure_noop_witness :
    (read_string_from_memory ⟨none⟩ 0 4).1 = none ∧
    (read_string_from_memory ⟨none⟩ 0 4).2.length = 1 ∧
    (host_log ⟨none⟩ 0 4).stdout = [] ∧
    (∀ b : Bool, (host_notify b ⟨none⟩ 0 4).stdout = []) ∧
    (∀ (b : Bool) (d : Int) (m : List (String × Int)),
      (host_metric_inc b ⟨none⟩ 0 4 d m).1 = m ∧
      (host_metric_inc b ⟨none⟩ 0 4 d m).2.stdout = []) ∧
    (∀ (b : Bool) (sd id : String) (pp pl : Nat) (sink : List String),
      (host_store_event b sd id ⟨none⟩ 0 4 pp pl sink).1 = sink ∧
      (host_store_event b sd id ⟨none⟩ 0 4 pp pl sink).2.stdout = []) ∧
    (∀ (b : Bool) (resp : String → Option (Nat × String)),
      (host_http_get b resp ⟨none⟩ 0 4).requests = [] ∧
      (host_http_get b resp ⟨none⟩ 0 4).out.stdout = []) :=
  host_call_decode_failure_noop ⟨none⟩ 0 4 (Or.inl rfl)

/-- C10: when argument decoding fails for `host_notify` while notifications
are disabled, no blocked diagnostic is emitted at all — the whole call prints
nothing to stdout (the permission gate sits behind a successful decode). -/
theorem notify_decode_failure_silent (c : GuestCaller) (p l : Nat)
    (errs : List String)
    (h : read_string_from_memory c p l = (none, errs)) :
    host_notify false c p l = ⟨[], errs⟩ ∧
    ((host_notify false c p l).stdout.filter
      (fun s => strLeads "[capsule-notify BLOQUEADA]" s)).length = 0 := by
  have h1 : host_notify false c p l = ⟨[], errs⟩ := by simp [host_notify, h]
  exact ⟨h1, by simp [h1]⟩

/-- Witness for C10: a caller with no exported memory. -/
theorem notify_decode_failure_silent_witness :
    host_notify false ⟨none⟩ 0 5
        = ⟨[], ["[caeles-runtime] cápsula não exporta memória \"memory\""]⟩ ∧
    ((host_notify false ⟨none⟩ 0 5).stdout.filter
      (fun s => strLeads "[capsule-notify BLOQUEADA]" s)).length = 0 :=
  notify_decode_failure_silent ⟨none⟩ 0 5
    ["[caeles-runtime] cápsula não exporta memória \"memory\""] (by decide)

/-- C3 amended: a module with a recognised network import under
`permissions.network = false` makes `run_capsule` fail before `caeles_main`
is ever invoked; when the module has the required memory export the failure
is the fixed message `Módulo requer APIs de rede, mas permissions.network =
false`, which names the violated permission rather than the offending
import. -/
theorem network_import_blocks_run (env : RunEnv) (m : CapsuleManifest)
    (mod : WasmModule) (imp : String × String)
    (hload : env.loadModule = .ok mod)
    (himp : imp ∈ mod.imports) (hpat : isNetworkImport imp = true)
    (hnet : m.permissions.network = false) :
    detect_network_imports mod = true ∧
    exceptOk (run_capsule env m).2 = false ∧
    (run_capsule env m).1.mainInvoked = false ∧
    (ensure_memory_export mod = .ok () →
      (run_capsule env m).2 = .error networkBlockedMsg) := by
  have hdet : detect_network_imports mod = true :=
    List.any_eq_true.mpr ⟨imp, himp, hpat⟩
  refine ⟨hdet, ?_⟩
  cases hmem : ensure_memory_export mod with
  | error e => simp [run_capsule, hload, hmem, exceptOk]
  | ok u =>
    cases u
    simp [run_capsule, hload, hmem, hdet, hnet, exceptOk]

/-- Witness for the amended C3: the socket-importing module under a manifest
with `network = false`. -/
theorem network_import_blocks_run_witness :
    detect_network_imports sockModule = true ∧
    exceptOk (run_capsule (benignEnv sockModule) plainManifest).2 = false ∧
    (run_capsule (benignEnv sockModule) plainManifest).1.mainInvoked = false ∧
    (ensure_memory_export sockModule = .ok () →
      (run_capsule (benignEnv sockModule) plainManifest).2
        = .error networkBlockedMsg) :=
  network_import_blocks_run (benignEnv sockModule) plainManifest sockModule
    ("wasi_snapshot_preview1", "sock_open") rfl (by decide) (by decide) rfl

/-- C3 counterexample: for the module importing `sock_open` under
`network = false`, `run_capsule` fails with the fixed message, and that
message does not name the offending import (it mentions neither the field
`sock_open` nor the module `wasi_snapshot_preview1`). -/
theorem network_error_lacks_import_name :
    (run_capsule (benignEnv sockModule) plainManifest).2
      = .error networkBlockedMsg ∧
    strMentions networkBlockedMsg "sock_open" = false ∧
    strMentions networkBlockedMsg "wasi_snapshot_preview1" = false :=
  ⟨rfl, by decide, by decide⟩

theorem validatePreopenList_escape (fs : FS) (base : RPath)
    (pre post : List PreopenedDir) (e : PreopenedDir) (ch : RPath)
    (hok : ∀ x ∈ pre, entryOk fs base x = true)
    (hex : fs.pathExists (base.join e.host) = true)
    (hdir : fs.isDir (base.join e.host) = true)
    (hcan : fs.canonicalize (base.join e.host) = some ch)
    (hesc : ch.startsWith base = false) :
    validatePreopenList fs base (pre ++ e :: post)
      = .error (escapeMsg ch base) := by
  induction pre with
  | nil =>
    have hentry : validatePreopenEntry fs base e = .error (escapeMsg ch base) := by
      simp [validatePreopenEntry, hex, hdir, hcan, hesc]
    simp [validatePreopenList, hentry]
  | cons x xs ih =>
    have hx : entryOk fs base x = true := hok x (by simp)
    obtain ⟨v, hv⟩ : ∃ v, validatePreopenEntry fs base x = .ok v := by
      unfold entryOk exceptOk at hx
      cases h : validatePreopenEntry fs base x with
      | ok v => exact ⟨v, rfl⟩
      | error e' => rw [h] at hx; simp at hx
    have hrest := ih (fun y hy => hok y (by simp [hy]))
    simp [validatePreopenList, hv, hrest]

/-- C4 amended: when a preopen entry's canonical host escapes the canonical
base directory (and the entries before it validate), `validated_preopens`
returns the escape error and `run_capsule` fails without ever invoking
`caeles_main`; the WebAssembly module, however, is opened first —
`Module::from_file` runs before preopen validation. -/
theorem preopen_escape_fails (env : RunEnv) (m : CapsuleManifest)
    (base ch : RPath) (pre post : List PreopenedDir) (e : PreopenedDir)
    (hbase : env.fs.canonicalize m.base_dir = some base)
    (hsplit : m.preopened_dirs = pre ++ e :: post)
    (hok : ∀ x ∈ pre, entryOk env.fs base x = true)
    (hex : env.fs.pathExists (base.join e.host) = true)
    (hdir : env.fs.isDir (base.join e.host) = true)
    (hcan : env.fs.canonicalize (base.join e.host) = some ch)
    (hesc : ch.startsWith base = false) :
    m.validated_preopens env.fs = .error (escapeMsg ch base) ∧
    exceptOk (run_capsule env m).2 = false ∧
    (run_capsule env m).1.mainInvoked = false := by
  have hvp : m.validated_preopens env.fs = .error (escapeMsg ch base) := by
    unfold CapsuleManifest.validated_preopens
    rw [hbase, hsplit]
    exact validatePreopenList_escape env.fs base pre post e ch hok hex hdir
      hcan hesc
  refine ⟨hvp, ?_⟩
  cases hload : env.loadModule with
  | error e' => simp [run_capsule, hload, exceptOk]
  | ok mod =>
    cases hmem : ensure_memory_export mod with
    | error e' => simp [run_capsule, hload, hmem, exceptOk]
    | ok u =>
      cases u
      by_cases hnet : (detect_network_imports mod && !m.permissions.network) = true
      · simp [run_capsule, hload, hmem, hnet, exceptOk]
      · obtain ⟨er, her⟩ : ∃ er, instantiate_module env m mod = .error er := by
          unfold instantiate_module
          cases hve : m.validated_env with
          | error e2 => exact ⟨e2, rfl⟩
          | ok l =>
            rw [hvp]
            exact ⟨_, rfl⟩
        simp [run_capsule, hload, hmem, hnet, her, exceptOk]

/-- Witness for the amended C4: the `../secrets` escape scenario. -/
theorem preopen_escape_fails_witness :
    escapeManifest.validated_preopens escapeFS
      = .error (escapeMsg ⟨true, ["secrets"]⟩ ⟨true, ["app"]⟩) ∧
    exceptOk (run_capsule escapeEnv escapeManifest).2 = false ∧
    (run_capsule escapeEnv escapeManifest).1.mainInvoked = false :=
  preopen_escape_fails escapeEnv escapeManifest ⟨true, ["app"]⟩
    ⟨true, ["secrets"]⟩ [] []
    ⟨⟨false, ["..", "secrets"]⟩, ⟨true, ["data"]⟩, false⟩
    rfl rfl (by simp) rfl rfl rfl rfl

/-- C4 counterexample: in the escape scenario the preopen validation fails
with the escape error, yet the module has already been opened —
`run_capsule` calls `Module::from_file` before `validated_preopens`, so "the
module is never opened" is false. -/
theorem preopen_escape_module_opened :
    escapeManifest.validated_preopens escapeFS
      = .error (escapeMsg ⟨true, ["secrets"]⟩ ⟨true, ["app"]⟩) ∧
    (run_capsule escapeEnv escapeManifest).1.moduleOpened = true ∧
    exceptOk (run_capsule escapeEnv escapeManifest).2 = false :=
  ⟨rfl, rfl, rfl⟩

/-- C5 amended: a module lacking the exported memory named `memory` makes
`run_capsule` fail before instantiation; a module lacking an exported
function `caeles_main` of type `() -> ()` makes `run_capsule` fail without
`caeles_main` being invoked — but that failure occurs only after
instantiation, since `get_typed_func` runs on the created instance. -/
theorem missing_export_fails (env : RunEnv) (m : CapsuleManifest)
    (mod : WasmModule) (hload : env.loadModule = .ok mod) :
    ((mod.exports.any fun e => e.2 == ExternTy.memory && e.1 == "memory")
        = false →
      exceptOk (run_capsule env m).2 = false ∧
      (run_capsule env m).1.instantiated = false ∧
      (run_capsule env m).1.mainInvoked = false) ∧
    (hasMainExport mod = false →
      exceptOk (run_capsule env m).2 = false ∧
      (run_capsule env m).1.mainInvoked = false) := by
  constructor
  · intro hmem
    have hfail : ensure_memory_export mod
        = .error "Módulo não exporta memória \"memory\"" := by
      unfold ensure_memory_export
      rw [hmem]
      rfl
    simp [run_capsule, hload, hfail, exceptOk]
  · intro hmain
    cases hmem : ensure_memory_export mod with
    | error e => simp [run_capsule, hload, hmem, exceptOk]
    | ok u =>
      cases u
      by_cases hnet : (detect_network_imports mod && !m.permissions.network) = true
      · simp [run_capsule, hload, hmem, hnet, exceptOk]
      · cases hin : instantiate_module env m mod with
        | error e => simp [run_capsule, hload, hmem, hnet, hin, exceptOk]
        | ok u2 =>
          cases u2
          simp [run_capsule, hload, hmem, hnet, hin, hmain, exceptOk]

/-- Witness for the amended C5: a module with no exports at all, and the
module exporting only its memory. -/
theorem missing_export_fails_witness :
    (exceptOk (run_capsule (benignEnv ⟨[], []⟩) plainManifest).2 = false ∧
      (run_capsule (benignEnv ⟨[], []⟩) plainManifest).1.instantiated = false ∧
      (run_capsule (benignEnv ⟨[], []⟩) plainManifest).1.mainInvoked = false) ∧
    (exceptOk (run_capsule (benignEnv noMainModule) plainManifest).2 = false ∧
      (run_capsule (benignEnv noMainModule) plainManifest).1.mainInvoked
        = false) :=
  ⟨(missing_export_fails (benignEnv ⟨[], []⟩) plainManifest ⟨[], []⟩ rfl).1
      (by decide),
   (missing_export_fails (benignEnv noMainModule) plainManifest noMainModule
      rfl).2 (by decide)⟩

/-- C5 counterexample: the module exporting `memory` but no `caeles_main`
fails — but only after instantiation (`instantiated = true`), refuting
"the failure occurs before the module is instantiated". -/
theorem missing_main_after_instantiation :
    (run_capsule (benignEnv noMainModule) plainManifest).1.instantiated
      = true ∧
    exceptOk (run_capsule (benignEnv noMainModule) plainManifest).2 = false :=
  ⟨rfl, rfl⟩

/-- C7 counterexample: `CapsuleManifest::load` succeeds on a manifest whose
`id`, `name`, `version` and `entry` are all the empty string (serde imposes
no emptiness constraint and `load` adds none), refuting "load fails for every
manifest file in which any of these fields is empty". -/
theorem load_accepts_empty_fields :
    exceptOk (CapsuleManifest.load
      (.ok ⟨"", "", "", "", ⟨false, false, false⟩, [], []⟩) ⟨true, ["app"]⟩)
      = true :=
  rfl

/-- C7 amended: `CapsuleManifest::load` performs no validation of its own —
for every successfully parsed manifest (empty strings included) it succeeds,
merely recording `base_dir` from the manifest path's parent, and it fails
exactly when reading or parsing fails. -/
theorem load_never_validates (d : ManifestData) (parent : RPath) (e : String) :
    CapsuleManifest.load (.ok d) parent = .ok ⟨d, parent⟩ ∧
    CapsuleManifest.load (.error e) parent = .error e :=
  ⟨rfl, rfl⟩

theorem checkEnvPairs_none_iff : ∀ l : List (String × String),
    checkEnvPairs l = none ↔ ∀ p ∈ l, envPairBad p = false := by
  intro l
  induction l with
  | nil => simp [checkEnvPairs]
  | cons hd tl ih =>
    obtain ⟨k, v⟩ := hd
    by_cases h1 : k.isEmpty
    · simp [checkEnvPairs, h1, envPairBad]
    · by_cases h2 : (containsChar k '\x00' || containsChar k '=') = true
      · simp only [checkEnvPairs, h1, if_false, h2, if_true, Bool.false_eq_true]
        constructor
        · intro h
          cases h
        · intro h
          have := h (k, v) (by simp)
          simp only [envPairBad, Bool.or_eq_true] at h2
          simp [envPairBad, h2] at this
          rcases h2 with h2 | h2 <;> simp [h2] at this
      · by_cases h3 : containsChar v '\x00'
        · simp only [checkEnvPairs, h1, if_false, h2, h3, if_true,
            Bool.false_eq_true]
          constructor
          · intro h
            cases h
          · intro h
            have := h (k, v) (by simp)
            simp [envPairBad, h3] at this
        · have hbadhd : envPairBad (k, v) = false := by
            have e1 : k.isEmpty = false := by simpa using h1
            have e4 : containsChar v '\x00' = false := by simpa using h3
            have e2 : containsChar k '\x00' = false := by
              cases hc : containsChar k '\x00'
              · rfl
              · exact absurd (by simp [hc]) h2
            have e3 : containsChar k '=' = false := by
              cases hc : containsChar k '='
              · rfl
              · exact absurd (by simp [hc]) h2
            simp [envPairBad, e1, e2, e3, e4]
          simp only [checkEnvPairs, h1, if_false, h2, h3, Bool.false_eq_true]
          rw [ih]
          constructor
          · intro h p hp
            rcases List.mem_cons.mp hp with hp | hp
            · rw [hp]
              exact hbadhd
            · exact h p hp
          · intro h p hp
            exact h p (List.mem_cons_of_mem _ hp)

/-- C8: `validated_env` returns an error precisely when some pair is bad —
an empty key, a key containing `=` or NUL, or a value containing NUL — and
when every pair is good it returns the env pairs unchanged. -/
theorem validated_env_contract (m : CapsuleManifest) :
    ((∃ e, m.validated_env = .error e) ↔ ∃ p ∈ m.env, envPairBad p = true) ∧
    ((∀ p ∈ m.env, envPairBad p = false) → m.validated_env = .ok m.env) := by
  refine ⟨⟨?_, ?_⟩, ?_⟩
  · rintro ⟨e, he⟩
    by_contra hno
    push_neg at hno
    have hnone : checkEnvPairs m.env = none :=
      (checkEnvPairs_none_iff m.env).mpr
        (fun p hp => by simpa using hno p hp)
    unfold CapsuleManifest.validated_env at he
    rw [hnone] at he
    cases he
  · rintro ⟨p, hp, hbad⟩
    cases hc : checkEnvPairs m.env with
    | some e =>
      refine ⟨e, ?_⟩
      unfold CapsuleManifest.validated_env
      rw [hc]
    | none =>
      have := (checkEnvPairs_none_iff m.env).mp hc p hp
      simp [hbad] at this
  · intro hall
    have hnone : checkEnvPairs m.env = none :=
      (checkEnvPairs_none_iff m.env).mpr hall
    unfold CapsuleManifest.validated_env
    rw [hnone]

/-- Witness for C8: a manifest with one well-formed env pair. -/
theorem validated_env_contract_witness :
    ({ id := "i", name := "n", version := "v", entry := "e.wasm",
       permissions := ⟨false, false, false⟩, env := [("KEY", "val")],
       preopened_dirs := [], base_dir := ⟨true, ["app"]⟩ } :
        CapsuleManifest).validated_env = .ok [("KEY", "val")] :=
  (validated_env_contract _).2 (by decide)

theorem wrap64_eq_of_inRange (z : Int) (h : inRange64 z = true) :
    wrap64 z = z := by
  have hz := of_decide_eq_true h
  have h64 : (2 : Int) ^ 64 = 18446744073709551616 := by norm_num
  have h63 : (2 : Int) ^ 63 = 9223372036854775808 := by norm_num
  unfold wrap64
  rw [h63] at hz ⊢
  rw [h64]
  omega

theorem foldWrap_eq_sum : ∀ (ds : List Int) (acc : Int),
    sumsOk acc ds = true →
    ds.foldl (fun a d => wrap64 (a + d)) acc = acc + ds.sum := by
  intro ds
  induction ds with
  | nil => intro acc _; simp
  | cons d ds ih =>
    intro acc h
    simp only [sumsOk, Bool.and_eq_true] at h
    obtain ⟨h1, h2⟩ := h
    simp only [List.foldl_cons, List.sum_cons]
    rw [wrap64_eq_of_inRange _ h1, ih _ h2]
    ring

theorem applyMetricOps_single (n : String) (ds : List Int) (v : Int) :
    applyMetricOps [(n, v)] (ds.map fun d => (n, d))
      = [(n, ds.foldl (fun a d => wrap64 (a + d)) v)] := by
  induction ds generalizing v with
  | nil => simp [applyMetricOps]
  | cons d ds ih =>
    simp only [List.map_cons, applyMetricOps, List.foldl_cons] at ih ⊢
    simpa [bumpMetric] using ih (wrap64 (v + d))

theorem bumpMetric_keys (m : List (String × Int)) (n : String) (d : Int) :
    (bumpMetric m n d).map Prod.fst
      = if n ∈ m.map Prod.fst then m.map Prod.fst
        else m.map Prod.fst ++ [n] := by
  induction m with
  | nil => simp [bumpMetric]
  | cons hd tl ih =>
    obtain ⟨k, v⟩ := hd
    by_cases hk : k = n
    · subst hk
      simp [bumpMetric]
    · by_cases hn : n ∈ tl.map Prod.fst <;>
        simp [bumpMetric, hk, Ne.symm hk, hn, ih]

theorem bumpMetric_keys_nodup (m : List (String × Int)) (n : String)
    (d : Int) (h : (m.map Prod.fst).Nodup) :
    ((bumpMetric m n d).map Prod.fst).Nodup := by
  rw [bumpMetric_keys]
  by_cases hn : n ∈ m.map Prod.fst
  · simpa [hn] using h
  · simp [hn, List.nodup_append, h]

theorem bumpMetric_keys_mem (m : List (String × Int)) (n : String) (d : Int)
    (x : String) :
    x ∈ (bumpMetric m n d).map Prod.fst ↔ x ∈ m.map Prod.fst ∨ x = n := by
  rw [bumpMetric_keys]
  by_cases hn : n ∈ m.map Prod.fst
  · simp only [hn, if_true]
    constructor
    · exact Or.inl
    · rintro (h | h)
      · exact h
      · rwa [h]
  · simp [hn]

theorem applyMetricOps_keys_nodup : ∀ (ops m : List (String × Int)),
    (m.map Prod.fst).Nodup → ((applyMetricOps m ops).map Prod.fst).Nodup := by
  intro ops
  induction ops with
  | nil => intro m h; simpa [applyMetricOps] using h
  | cons op ops ih =>
    intro m h
    simp only [applyMetricOps, List.foldl_cons] at ih ⊢
    exact ih _ (bumpMetric_keys_nodup m op.1 op.2 h)

theorem applyMetricOps_keys_mem : ∀ (ops m : List (String × Int)) (x : String),
    x ∈ (applyMetricOps m ops).map Prod.fst
      ↔ x ∈ m.map Prod.fst ∨ x ∈ ops.map Prod.fst := by
  intro ops
  induction ops with
  | nil => intro m x; simp [applyMetricOps]
  | cons op ops ih =>
    intro m x
    simp only [applyMetricOps, List.foldl_cons] at ih ⊢
    rw [ih]
    rw [bumpMetric_keys_mem]
    simp only [List.map_cons, List.mem_cons]
    tauto

theorem lookup_mem_keys : ∀ (m : List (String × Int)) (n : String),
    n ∈ m.map Prod.fst → ∃ v, List.lookup n m = some v := by
  intro m
  induction m with
  | nil => intro n h; simp at h
  | cons hd tl ih =>
    obtain ⟨k, v⟩ := hd
    intro n h
    by_cases hk : n = k
    · refine ⟨v, ?_⟩
      have hb : (n == k) = true := beq_iff_eq.mpr hk
      simp [List.lookup, hb]
    · have hb : (n == k) = false := by
        cases hc : n == k
        · rfl
        · exact absurd (beq_iff_eq.mp hc) hk
      rw [List.map_cons] at h
      rcases List.mem_cons.mp h with h' | h'
      · exact absurd h' hk
      · obtain ⟨w, hw⟩ := ih n h'
        refine ⟨w, ?_⟩
        simp [List.lookup, hb, hw]

theorem lookup_some_mem : ∀ (m : List (String × Int)) (n : String) (v : Int),
    List.lookup n m = some v → (n, v) ∈ m := by
  intro m
  induction m with
  | nil => intro n v h; simp [List.lookup] at h
  | cons hd tl ih =>
    obtain ⟨k, w⟩ := hd
    intro n v h
    by_cases hk : n = k
    · have hb : (n == k) = true := beq_iff_eq.mpr hk
      simp [List.lookup, hb] at h
      subst hk
      simp [h]
    · have hb : (n == k) = false := by
        cases hc : n == k
        · rfl
        · exact absurd (beq_iff_eq.mp hc) hk
      simp only [List.lookup, hb] at h
      exact List.mem_cons_of_mem _ (ih n v h)

theorem lookup_bump_self : ∀ (m : List (String × Int)) (n : String) (d : Int),
    List.lookup n (bumpMetric m n d)
      = some (wrap64 ((List.lookup n m).getD 0 + d)) := by
  intro m
  induction m with
  | nil => intro n d; simp [bumpMetric, List.lookup]
  | cons hd tl ih =>
    obtain ⟨k, v⟩ := hd
    intro n d
    by_cases hk : k = n
    · subst hk
      have hb : (k == k) = true := beq_iff_eq.mpr rfl
      simp [bumpMetric, List.lookup, hb]
    · have hb : (n == k) = false := by
        cases hc : n == k
        · rfl
        · exact absurd (beq_iff_eq.mp hc).symm hk
      simp [bumpMetric, List.lookup, hk, hb, ih]

theorem lookup_bump_other : ∀ (m : List (String × Int)) (k : String) (d : Int)
    (n : String), k ≠ n →
    List.lookup n (bumpMetric m k d) = List.lookup n m := by
  intro m
  induction m with
  | nil =>
    intro k d n hk
    have hb : (n == k) = false := by
      cases hc : n == k
      · rfl
      · exact absurd (beq_iff_eq.mp hc).symm hk
    simp [bumpMetric, List.lookup, hb]
  | cons hd tl ih =>
    obtain ⟨k', v⟩ := hd
    intro k d n hk
    by_cases hk' : k' = k
    · subst hk'
      have hb : (n == k') = false := by
        cases hc : n == k'
        · rfl
        · exact absurd (beq_iff_eq.mp hc).symm hk
      simp [bumpMetric, List.lookup, hb]
    · by_cases hn : n = k'
      · have hb : (n == k') = true := beq_iff_eq.mpr hn
        simp [bumpMetric, hk', List.lookup, hb]
      · have hb : (n == k') = false := by
          cases hc : n == k'
          · rfl
          · exact absurd (beq_iff_eq.mp hc) hn
        simp [bumpMetric, hk', List.lookup, hb, ih k d n hk]

theorem lookup_applyMetricOps : ∀ (ops m : List (String × Int)) (n : String),
    n ∈ m.map Prod.fst ∨ n ∈ ops.map Prod.fst →
    List.lookup n (applyMetricOps m ops)
      = some (((ops.filter (fun op => op.1 == n)).map Prod.snd).foldl
          (fun a d => wrap64 (a + d)) ((List.lookup n m).getD 0)) := by
  intro ops
  induction ops with
  | nil =>
    intro m n h
    have hm : n ∈ m.map Prod.fst := by simpa using h
    obtain ⟨v, hv⟩ := lookup_mem_keys m n hm
    simp [applyMetricOps, hv]
  | cons op ops ih =>
    obtain ⟨k, d⟩ := op
    intro m n h
    simp only [applyMetricOps, List.foldl_cons] at ih ⊢
    by_cases hkn : k = n
    · subst hkn
      have hmem : k ∈ (bumpMetric m k d).map Prod.fst :=
        (bumpMetric_keys_mem m k d k).mpr (Or.inr rfl)
      rw [ih (bumpMetric m k d) k (Or.inl hmem)]
      rw [lookup_bump_self m k d]
      have hb : (k == k) = true := beq_iff_eq.mpr rfl
      simp [List.filter, hb]
    · have hb : (k == n) = false := by
        cases hc : k == n
        · rfl
        · exact absurd (beq_iff_eq.mp hc) hkn
      have h' : n ∈ m.map Prod.fst ∨ n ∈ ops.map Prod.fst := by
        rcases h with h | h
        · exact Or.inl h
        · rw [List.map_cons] at h
          rcases List.mem_cons.mp h with h'' | h''
          · exact absurd h''.symm hkn
          · exact Or.inr h''
      have h'' : n ∈ (bumpMetric m k d).map Prod.fst ∨ n ∈ ops.map Prod.fst := by
        rcases h' with h' | h'
        · exact Or.inl ((bumpMetric_keys_mem m k d n).mpr (Or.inl h'))
        · exact Or.inr h'
      rw [ih (bumpMetric m k d) n h'']
      rw [lookup_bump_other m k d n hkn]
      simp [List.filter, hb]

/-- C6: metric increments applied through `host_metric_inc` with
`permissions.metrics = true` accumulate by addition: in any execution — also
one touching other metric names — the summary prints the line
`  - <n> = Σdᵢ` for the deltas `d₁…d_k` applied to name `n` (none of whose
partial sums overflows the signed 64-bit counter); for an execution touching
only `n` the whole summary is exactly the header plus that line; and for any
op sequence the summary's name list holds every touched name exactly once,
in ascending lexicographic order. -/
theorem metrics_summary_contract :
    (∀ (c : GuestCaller) (p l : Nat) (nm : String) (errs : List String)
        (d : Int) (m : List (String × Int)),
      read_string_from_memory c p l = (some nm, errs) →
      (host_metric_inc true c p l d m).1 = bumpMetric m nm d) ∧
    (∀ (ops : List (String × Int)) (n : String),
      n ∈ ops.map Prod.fst →
      sumsOk 0 ((ops.filter (fun op => op.1 == n)).map Prod.snd) = true →
      ("  - " ++ n ++ " = "
          ++ toString ((ops.filter (fun op => op.1 == n)).map Prod.snd).sum)
        ∈ metricsSummary (applyMetricOps [] ops)) ∧
    (∀ (n : String) (ds : List Int), ds ≠ [] → sumsOk 0 ds = true →
      metricsSummary (applyMetricOps [] (ds.map fun d => (n, d)))
        = ["> Metrics summary for this execution:",
           "  - " ++ n ++ " = " ++ toString ds.sum]) ∧
    (∀ ops : List (String × Int),
      List.Pairwise (fun a b => strLe a b = true)
        ((List.insertionSort byName (applyMetricOps [] ops)).map Prod.fst) ∧
      ((List.insertionSort byName (applyMetricOps [] ops)).map Prod.fst).Nodup ∧
      (∀ x, x ∈ (List.insertionSort byName (applyMetricOps [] ops)).map Prod.fst
        ↔ x ∈ ops.map Prod.fst)) := by
  refine ⟨fun c p l nm errs d m h => by simp [host_metric_inc, h], ?_, ?_, ?_⟩
  · intro ops n hmem hok
    have hl : List.lookup n (applyMetricOps [] ops)
        = some (((ops.filter (fun op => op.1 == n)).map Prod.snd).foldl
            (fun a d => wrap64 (a + d)) 0) := by
      simpa using lookup_applyMetricOps ops [] n (Or.inr hmem)
    rw [foldWrap_eq_sum _ 0 hok, Int.zero_add] at hl
    have hin : (n, ((ops.filter (fun op => op.1 == n)).map Prod.snd).sum)
        ∈ applyMetricOps [] ops :=
      lookup_some_mem _ _ _ hl
    have hempty : (applyMetricOps [] ops).isEmpty = false := by
      cases h : applyMetricOps [] ops with
      | nil => rw [h] at hin; simp at hin
      | cons a t => rfl
    have hsortmem : (n, ((ops.filter (fun op => op.1 == n)).map Prod.snd).sum)
        ∈ List.insertionSort byName (applyMetricOps [] ops) :=
      (List.perm_insertionSort byName _).mem_iff.mpr hin
    unfold metricsSummary
    rw [hempty]
    simp only [Bool.false_eq_true, if_false]
    exact List.mem_cons_of_mem _
      (List.mem_map_of_mem
        (fun p => "  - " ++ p.1 ++ " = " ++ toString p.2) hsortmem)
  · intro n ds hne hok
    cases ds with
    | nil => exact absurd rfl hne
    | cons d ds' =>
      simp only [sumsOk, Bool.and_eq_true] at hok
      obtain ⟨h1, h2⟩ := hok
      rw [Int.zero_add] at h1 h2
      have hfirst : applyMetricOps [] ((d :: ds').map fun x => (n, x))
          = [(n, ds'.foldl (fun a x => wrap64 (a + x)) d)] := by
        simp only [List.map_cons, applyMetricOps, List.foldl_cons]
        have hb : bumpMetric [] n d = [(n, d)] := by
          simp [bumpMetric, wrap64_eq_of_inRange d h1]
        rw [hb]
        simpa [applyMetricOps] using applyMetricOps_single n ds' d
      rw [hfirst, foldWrap_eq_sum ds' d h2]
      simp [metricsSummary, List.insertionSort, List.orderedInsert,
        List.sum_cons]
  · intro ops
    haveI : IsTotal (String × Int) byName :=
      ⟨fun a b => charListLe_total a.1.data b.1.data⟩
    haveI : IsTrans (String × Int) byName :=
      ⟨fun a b c hab hbc => charListLe_trans a.1.data b.1.data c.1.data hab hbc⟩
    have hnodup : ((applyMetricOps [] ops).map Prod.fst).Nodup :=
      applyMetricOps_keys_nodup ops [] (by simp)
    have hperm :
        List.Perm (List.insertionSort byName (applyMetricOps [] ops))
          (applyMetricOps [] ops) :=
      List.perm_insertionSort byName _
    have hpermKeys :
        List.Perm
          ((List.insertionSort byName (applyMetricOps [] ops)).map Prod.fst)
          ((applyMetricOps [] ops).map Prod.fst) :=
      hperm.map Prod.fst
    have hsorted : List.Sorted byName
        (List.insertionSort byName (applyMetricOps [] ops)) :=
      List.sorted_insertionSort byName _
    refine ⟨List.pairwise_map.mpr hsorted, hpermKeys.nodup_iff.mpr hnodup, ?_⟩
    intro x
    rw [hpermKeys.mem_iff, applyMetricOps_keys_mem ops [] x]
    simp

/-- Witness for C6: a mixed execution interleaving `jobs_total` with
`jobs_ok` whose summary contains `  - jobs_total = 2`, and the pure execution
`jobs += 2; jobs += 3` whose summary is exactly header plus `  - jobs = 5`. -/
theorem metrics_summary_contract_witness :
    "  - jobs_total = 2"
      ∈ metricsSummary (applyMetricOps []
          [("jobs_total", (1 : Int)), ("jobs_ok", 1), ("jobs_total", 1)]) ∧
    metricsSummary (applyMetricOps [] (([2, 3] : List Int).map fun d =>
        ("jobs", d)))
      = ["> Metrics summary for this execution:", "  - jobs = 5"] :=
  ⟨metrics_summary_contract.2.1
      [("jobs_total", (1 : Int)), ("jobs_ok", 1), ("jobs_total", 1)]
      "jobs_total" (by decide) (by decide),
   metrics_summary_contract.2.2.1 "jobs" [2, 3] (by decide) (by decide)⟩

end Caeles
